import Mathlib

/-!
# Verification of `jupyter_ai_router` (MessageRouter)

Shallow embedding of `src/jupyter_ai_router/router.py`.  Python dicts are
embedded as insertion-ordered association lists, sets as duplicate-free
lists, wall-clock times (`time.time()`) as integers (only ordering and
differences of timestamps are ever used), and external handles
(`YChat` / `YBaseDoc` objects, callback objects) as opaque natural-number
identifiers.  Observer callbacks are not executable inside the model, so a
"callback invocation" is embedded as an emitted `Delivery` / `Notif` value;
the order of the emitted list is the order of the Python calls.
-/

namespace JupyterAiRouter

/-! ## Association lists (Python `dict`: insertion-ordered, unique keys) -/

/-- First-match lookup, the embedding of `d[k]` / `k in d` / `d.get(k)`. -/
def lookupA {α β : Type} [DecidableEq α] : List (α × β) → α → Option β
  | [], _ => none
  | (k, v) :: rest, key => if key = k then some v else lookupA rest key

/-- The embedding of `d[k] = v`: update in place when the key exists,
append at the end otherwise (Python dicts keep insertion order). -/
def setA {α β : Type} [DecidableEq α] : List (α × β) → α → β → List (α × β)
  | [], key, v => [(key, v)]
  | (k, w) :: rest, key, v =>
      if key = k then (k, v) :: rest else (k, w) :: setA rest key v

/-- The embedding of `del d[k]`. -/
def eraseA {α β : Type} [DecidableEq α] : List (α × β) → α → List (α × β)
  | [], _ => []
  | (k, w) :: rest, key =>
      if key = k then rest else (k, w) :: eraseA rest key

theorem lookupA_setA_self {α β : Type} [DecidableEq α]
    (l : List (α × β)) (k : α) (v : β) : lookupA (setA l k v) k = some v := by
  induction l with
  | nil => simp [setA, lookupA]
  | cons p rest ih =>
    obtain ⟨k0, w⟩ := p
    by_cases h : k = k0 <;> simp [setA, lookupA, h, ih]

theorem lookupA_setA_ne {α β : Type} [DecidableEq α]
    (l : List (α × β)) (k k' : α) (v : β) (h : k' ≠ k) :
    lookupA (setA l k v) k' = lookupA l k' := by
  induction l with
  | nil => simp [setA, lookupA, h]
  | cons p rest ih =>
    obtain ⟨k0, w⟩ := p
    by_cases hk : k = k0
    · subst hk; simp [setA, lookupA, h]
    · by_cases hk' : k' = k0 <;> simp [setA, lookupA, hk, hk', ih]

/-! ## Regex engine, the embedding of Python `re` as used by
`matches_pattern` (`re.match(f"^{pattern}$", word)`).

The supported grammar covers literals, `.`, groups `( )`, alternation `|`,
the quantifiers `*` `+` `?`, the anchors `^` `$`, and backslash-escaped
punctuation.  Constructs outside this grammar (`[`, `{`, escape classes
such as `\d`, lazy quantifiers) make the parser fail, which the model
treats like a pattern that fails to compile.  `re.match` semantics: the
regex has to match some prefix of the word starting at position 0, with
`^` / `$` evaluated as position assertions. -/

/-- Regex syntax tree. `bos` / `eos` are the `^` / `$` assertions. -/
inductive Regex where
  | emp : Regex
  | eps : Regex
  | bos : Regex
  | eos : Regex
  | dot : Regex
  | chr : Char → Regex
  | seq : Regex → Regex → Regex
  | alt : Regex → Regex → Regex
  | star : Regex → Regex
deriving Repr, DecidableEq

/-- One closure step for `star`: everything reachable now, plus everything
reachable after one more iteration of the body. -/
def starStep (f : Nat → List Nat) (s : List Nat) : List Nat :=
  (s ++ s.flatMap f).dedup

/-- `ends w r i` is the set (as a list) of end positions `j` such that `r`
matches the span `[i, j)` of the word `w`; assertions read the absolute
position. -/
def ends (w : List Char) : Regex → Nat → List Nat
  | .emp, _ => []
  | .eps, i => [i]
  | .bos, i => if i = 0 then [i] else []
  | .eos, i => if i = w.length then [i] else []
  | .dot, i => if i < w.length then [i + 1] else []
  | .chr c, i => if h : i < w.length then
      (if w.get ⟨i, h⟩ = c then [i + 1] else []) else []
  | .seq r s, i => (ends w r i).flatMap (ends w s)
  | .alt r s, i => ends w r i ++ ends w s i
  | .star r, i => (starStep (ends w r))^[w.length + 1] [i]

/-- Fold one alternation branch (a factor list) into a `Regex`. -/
def seqList : List Regex → Regex
  | [] => .eps
  | r :: rs => .seq r (seqList rs)

/-- Fold a parsed list of top-level alternation branches into a `Regex`. -/
def buildAlt : List (List Regex) → Regex
  | [] => .emp
  | [b] => seqList b
  | b :: bs => .alt (seqList b) (buildAlt bs)

/-- Whether a character is one of the quantifiers `*` `+` `?`. -/
def isQuant (c : Char) : Bool := c = '*' || c = '+' || c = '?'

mutual

/-- Parse an alternation (`|`-separated branches) until `)` or the end of
input.  Returns the branches (each one a factor list) and the rest. -/
def parseAlt : Nat → List Char → Option (List (List Regex) × List Char)
  | 0, _ => none
  | fuel + 1, cs => do
      let (b, cs1) ← parseSeq fuel cs
      match cs1 with
      | '|' :: rest => do
          let (bs, cs2) ← parseAlt fuel rest
          pure (b :: bs, cs2)
      | _ => pure ([b], cs1)

/-- Parse a factor sequence (one alternation branch). -/
def parseSeq : Nat → List Char → Option (List Regex × List Char)
  | 0, _ => none
  | fuel + 1, cs =>
      match cs with
      | [] => pure ([], [])
      | ')' :: _ => pure ([], cs)
      | '|' :: _ => pure ([], cs)
      | _ => do
          let (f, cs1) ← parseFactor fuel cs
          let (fs, cs2) ← parseSeq fuel cs1
          pure (f :: fs, cs2)

/-- Parse one atom followed by an optional quantifier; quantifying an
anchor is a compile error in Python (`nothing to repeat`), so it fails. -/
def parseFactor : Nat → List Char → Option (Regex × List Char)
  | 0, _ => none
  | fuel + 1, cs => do
      let (a, cs1) ← parseAtom fuel cs
      match cs1 with
      | c :: rest =>
          if isQuant c then
            if a = .bos || a = .eos then none
            else if c = '*' then pure (.star a, rest)
            else if c = '+' then pure (.seq a (.star a), rest)
            else pure (.alt a .eps, rest)
          else pure (a, cs1)
      | [] => pure (a, cs1)

/-- Parse one atom. -/
def parseAtom : Nat → List Char → Option (Regex × List Char)
  | 0, _ => none
  | fuel + 1, cs =>
      match cs with
      | [] => none
      | '(' :: rest => do
          let (bs, cs1) ← parseAlt fuel rest
          match cs1 with
          | ')' :: cs2 => pure (buildAlt bs, cs2)
          | _ => none
      | ')' :: _ => none
      | '|' :: _ => none
      | '.' :: rest => pure (.dot, rest)
      | '^' :: rest => pure (.bos, rest)
      | '$' :: rest => pure (.eos, rest)
      | '[' :: _ => none
      | '{' :: _ => none
      | '\\' :: c :: rest =>
          if c.isAlphanum then none else pure (.chr c, rest)
      | '\\' :: [] => none
      | c :: rest =>
          if isQuant c then none else pure (.chr c, rest)

end

/-- Compile a pattern string (Python `re.compile`), keeping the top-level
alternation branches unfolded. `none` is a compile failure. -/
def parsePattern (p : List Char) : Option (List (List Regex)) :=
  match parseAlt (4 * p.length + 8) p with
  | some (bs, []) => some bs
  | _ => none

/-- Append the `$` atom to the final branch. -/
def wrapAnchorLast : List (List Regex) → List (List Regex)
  | [] => []
  | [b] => [b ++ [.eos]]
  | b :: bs => b :: wrapAnchorLast bs

/-- The AST-level effect of the f-string `f"^{pattern}$"`: since `|` has
the lowest precedence, `^` joins only the first branch and `$` only the
last one. -/
def wrapAnchor : List (List Regex) → List (List Regex)
  | [] => []
  | [b] => [.bos :: (b ++ [.eos])]
  | b :: bs => (.bos :: b) :: wrapAnchorLast bs

/-- Embedding of `matches_pattern` (router.py:61):
`bool(re.match(f"^{pattern}$", word))`, with `re.error` giving `False`. -/
def matches_pattern (word pattern : String) : Bool :=
  match parsePattern pattern.data with
  | none => false
  | some bs => !(ends word.data (buildAlt (wrapAnchor bs)) 0).isEmpty

/-- Spec-side definition, following the spec's words: the pattern,
anchored at both ends, matches the whole token as a regular expression;
a pattern that fails to compile matches nothing. -/
def specMatches (word pattern : String) : Bool :=
  match parsePattern pattern.data with
  | none => false
  | some bs => (ends word.data (buildAlt bs) 0).contains word.data.length

/-! ## Data model -/

/-- Embedding of `jupyterlab_chat.models.Message`; the same shape also
embeds the raw inserted records of a delta batch (which carry the
`raw_time` duplicate-echo flag read by `_on_message_change`). -/
structure Message where
  id : String
  body : String
  sender : String
  time : ℤ
  mentions : List String := []
  attachments : List String := []
  deleted : Bool := false
  raw_time : Bool := false
deriving Repr, DecidableEq

/-- One change record of a delta batch: `change["insert"]` when the
`insert` key is present (`delete` payloads are ignored by the router). -/
structure DeltaChange where
  insert : Option (List Message)
deriving Repr, DecidableEq

/-- Per-client awareness entry: `state.get("user",{}).get("username")`,
`state.get("current")`, `state.get("activeCellId")`,
`state.get("notebookPath")`. -/
structure ClientState where
  username : Option String := none
  current : Option String := none
  activeCellId : Option String := none
  notebookPath : Option String := none
deriving Repr, DecidableEq

/-- The stored `{active_cell, notebook_path, last_check}` dict kept in
`UserTracker.room_states`. -/
structure RoomUserState where
  active_cell : Option String
  notebook_path : Option String
  last_check : ℤ
deriving Repr, DecidableEq

/-- Embedding of `UserTracker` (router.py:26). -/
structure UserTracker where
  username : String
  current_document : Option String := none
  observer_ids : List Nat := []
  room_states : List (String × RoomUserState) := []
deriving Repr, DecidableEq

/-- Embedding of `RoomTracker` (router.py:35).  The `ydoc` handle is an
opaque identifier; the awareness/notebook subscription handles live and
die with the tracker (installed by `start_observing` at creation,
released by `stop_observing` at deletion), so tracker membership in
`rooms` embeds the subscription state. -/
structure RoomTracker where
  room_id : String
  ydoc : Nat
  last_edit_time : ℤ := 0
  last_trigger_time : ℤ := 0
  active_users : List String := []
deriving Repr, DecidableEq

/-- An activity notification event: the arguments of one
`_notify_notebook_activity_observers` call. -/
structure Notif where
  username : String
  prev_active_cell : String
  notebook_path : Option String
deriving Repr, DecidableEq

/-- A callback invocation made by the message dispatcher; callbacks are
identified by opaque numbers. -/
inductive Delivery where
  | chatInit (cb : Nat) (room_id : String) (ychat : Nat)
  | chatReset (cb : Nat) (room_id : String) (ychat : Nat)
  | notebookReset (cb : Nat) (room_id : String) (ydoc : Nat)
  | slashCmd (cb : Nat) (room_id : String) (command : String) (message : Message)
  | chatMsg (cb : Nat) (room_id : String) (message : Message)
deriving Repr, DecidableEq

/-- Embedding of the `MessageRouter` instance state (router.py:88). -/
structure RouterState where
  chat_init_observers : List Nat := []
  slash_cmd_observers : List (String × List (String × List Nat)) := []
  chat_msg_observers : List (String × List Nat) := []
  chat_reset_observers : List Nat := []
  notebook_reset_observers : List Nat := []
  users : List (String × UserTracker) := []
  rooms : List (String × RoomTracker) := []
  observer_counter : Nat := 0
  trigger_cooldown : ℤ := 1
  observer_callbacks : List (Nat × String) := []
  active_chats : List (String × Nat) := []
  message_observers : List (String × Nat) := []
deriving Repr, DecidableEq

/-- A freshly constructed `MessageRouter()`. -/
def initState : RouterState := {}

/-- Python truthiness of an optional string (`if not x`): `None` and the
empty string are falsy. -/
def strTruthy : Option String → Bool
  | none => false
  | some s => !s.data.isEmpty

/-- `s.startswith(p)`, character-wise. -/
def pyStartsWith (s p : String) : Bool := p.data.isPrefixOf s.data

/-- `s[1:]`, character-wise. -/
def pyDrop1 (s : String) : String := String.mk (s.data.drop 1)

/-- `s.split(":", maxsplit=1)[1]` for a string known to contain a colon. -/
def afterColon (s : String) : String :=
  String.mk ((s.data.dropWhile (fun c => c ≠ ':')).tail)

/-- `set.add` on the duplicate-free list embedding a Python set. -/
def addUser (l : List String) (u : String) : List String :=
  if u ∈ l then l else l ++ [u]

/-- `set.discard` on the duplicate-free list embedding a Python set. -/
def discardUser (l : List String) (u : String) : List String :=
  l.filter (fun v => v ≠ u)

/-! ## Message dispatcher (router.py:528-694) -/

/-- `body.split(None, 1)`: Python splits on runs of whitespace, drops
leading whitespace and the delimiting run, and returns at most two
parts. -/
def splitNone1 (s : String) : List String :=
  let l := s.data.dropWhile Char.isWhitespace
  match l with
  | [] => []
  | _ =>
      let tok := l.takeWhile (fun c => !c.isWhitespace)
      let rest := (l.dropWhile (fun c => !c.isWhitespace)).dropWhile Char.isWhitespace
      match rest with
      | [] => [String.mk tok]
      | _ => [String.mk tok, String.mk rest]

/-- Modelled from the spec: `get_first_word` lives in
`jupyter_ai_router/utils.py`, which is not part of the sources here (only
its tests are).  Per the spec it extracts the first whitespace-delimited
token of the body, and there is none for a blank body. -/
def get_first_word (s : String) : Option String :=
  (splitNone1 s).head?

/-- Embedding of `MessageRouter._notify_slash_cmd_observers`
(router.py:619): every registered pattern that matches gets its whole
callback list, pattern-registration order then callback order; callback
exceptions are caught, so every invocation happens. -/
def notify_slash_cmd_observers (s : RouterState) (room_id : String)
    (message : Message) (clean_command : String) : List Delivery :=
  ((lookupA s.slash_cmd_observers room_id).getD []).flatMap fun pc =>
    if matches_pattern clean_command pc.1 then
      pc.2.map (fun cb => .slashCmd cb room_id clean_command message)
    else []

/-- Embedding of `MessageRouter._notify_msg_observers` (router.py:639). -/
def notify_msg_observers (s : RouterState) (room_id : String)
    (message : Message) : List Delivery :=
  ((lookupA s.chat_msg_observers room_id).getD []).map
    (fun cb => .chatMsg cb room_id message)

/-- Embedding of `MessageRouter._route_message` (router.py:590). -/
def route_message (s : RouterState) (room_id : String) (message : Message) :
    List Delivery :=
  let first_word := get_first_word message.body
  match first_word with
  | some w =>
      if pyStartsWith w "/" then
        let parts := splitNone1 message.body
        let command := parts.headD ""
        let trimmed_body := parts.getD 1 ""
        let trimmed_message := { message with body := trimmed_body }
        let clean_command :=
          if pyStartsWith command "/" then pyDrop1 command else command
        notify_slash_cmd_observers s room_id trimmed_message clean_command
      else notify_msg_observers s room_id message
  | none => notify_msg_observers s room_id message

/-- Embedding of `MessageRouter._on_message_change` (router.py:574): only
changes with an `insert` payload are considered, inserted items with a
true `raw_time` flag are dropped, the rest are routed in array order. -/
def on_message_change (s : RouterState) (room_id : String)
    (events : List DeltaChange) : List Delivery :=
  events.flatMap fun change =>
    match change.insert with
    | none => []
    | some items =>
        (items.filter (fun m => !m.raw_time)).flatMap
          (fun m => route_message s room_id m)

/-- Embedding of `MessageRouter.connect_chat` (router.py:528). -/
def connect_chat (s : RouterState) (room_id : String) (ychat : Nat) :
    RouterState × List Delivery :=
  if (lookupA s.active_chats room_id).isSome then (s, [])
  else
    ({ s with
        active_chats := setA s.active_chats room_id ychat,
        message_observers := setA s.message_observers room_id ychat },
      s.chat_init_observers.map (fun cb => .chatInit cb room_id ychat))

/-- Embedding of `MessageRouter.disconnect_chat` (router.py:552); the
unobserve error is swallowed, removal proceeds either way. -/
def disconnect_chat (s : RouterState) (room_id : String) : RouterState :=
  if (lookupA s.active_chats room_id).isNone then s
  else
    let s1 :=
      if (lookupA s.message_observers room_id).isSome then
        { s with message_observers := eraseA s.message_observers room_id }
      else s
    { s1 with active_chats := eraseA s1.active_chats room_id }

/-- Embedding of `MessageRouter._on_chat_reset` (router.py:648): it
stores the new document and fans out, and does not touch the message
delta subscription. -/
def on_chat_reset (s : RouterState) (room_id : String) (ychat : Nat) :
    RouterState × List Delivery :=
  ({ s with active_chats := setA s.active_chats room_id ychat },
    s.chat_reset_observers.map (fun cb => .chatReset cb room_id ychat))

/-- Embedding of `MessageRouter._on_notebook_reset` (router.py:664). -/
def on_notebook_reset (s : RouterState) (room_id : String) (ydoc : Nat) :
    RouterState × List Delivery :=
  (s, s.notebook_reset_observers.map (fun cb => .notebookReset cb room_id ydoc))

/-- Delta delivery only happens through the subscription installed by
`connect_chat` (`ychat.ymessages.observe`); a room with no entry in
`message_observers` has no callback attached, so its deltas never reach
the router. -/
def deltasReachRouter (s : RouterState) (room_id : String)
    (events : List DeltaChange) : List Delivery :=
  match lookupA s.message_observers room_id with
  | none => []
  | some _ => on_message_change s room_id events

/-- Embedding of `MessageRouter.cleanup` (router.py:679): disconnect the
snapshot of connected rooms, then clear the four chat registries
(`notebook_reset_observers`, activity tracking and
`_observer_callbacks` are left as they are). -/
def cleanup (s : RouterState) : RouterState :=
  let s1 := (s.active_chats.map Prod.fst).foldl disconnect_chat s
  { s1 with
      chat_init_observers := [],
      slash_cmd_observers := [],
      chat_msg_observers := [],
      chat_reset_observers := [] }

/-! ## Registration operations (router.py:197-311) -/

/-- Embedding of `observe_chat_init` (router.py:197). -/
def observe_chat_init (s : RouterState) (cb : Nat) : RouterState :=
  { s with chat_init_observers := s.chat_init_observers ++ [cb] }

/-- Embedding of `observe_chat_reset` (router.py:207). -/
def observe_chat_reset (s : RouterState) (cb : Nat) : RouterState :=
  { s with chat_reset_observers := s.chat_reset_observers ++ [cb] }

/-- Embedding of `observe_slash_cmd_msg` (router.py:218). -/
def observe_slash_cmd_msg (s : RouterState) (room_id command_pattern : String)
    (cb : Nat) : RouterState :=
  let roomMap := (lookupA s.slash_cmd_observers room_id).getD []
  let cbs := (lookupA roomMap command_pattern).getD []
  let roomMap1 := setA roomMap command_pattern (cbs ++ [cb])
  { s with slash_cmd_observers := setA s.slash_cmd_observers room_id roomMap1 }

/-- Embedding of `observe_chat_msg` (router.py:242). -/
def observe_chat_msg (s : RouterState) (room_id : String) (cb : Nat) :
    RouterState :=
  let cbs := (lookupA s.chat_msg_observers room_id).getD []
  { s with chat_msg_observers := setA s.chat_msg_observers room_id (cbs ++ [cb]) }

/-- Embedding of `observe_notebook_activity` (router.py:258); the
`_observe_active_notebook` task it schedules is a separate deferred
operation. -/
def observe_notebook_activity (s : RouterState) (username : String) :
    RouterState × Nat :=
  let observer_id := s.observer_counter
  let user := (lookupA s.users username).getD { username := username }
  let user1 := { user with observer_ids := user.observer_ids ++ [observer_id] }
  ({ s with
      observer_counter := observer_id + 1,
      users := setA s.users username user1,
      observer_callbacks := setA s.observer_callbacks observer_id username },
    observer_id)

/-! ## Room observation lifecycle (router.py:138-195, 287-362) -/

/-- Embedding of `_start_observing_room` (router.py:138).  The external
`await self._get_doc(room_id)` is the `getDoc` parameter; a `None` result
aborts tracker creation. -/
def start_observing_room (s : RouterState) (room_id username : String)
    (getDoc : String → Option Nat) : RouterState :=
  match lookupA s.rooms room_id with
  | some room =>
      let room1 := { room with active_users := addUser room.active_users username }
      { s with rooms := setA s.rooms room_id room1 }
  | none =>
      match getDoc room_id with
      | none => s
      | some ydoc =>
          let room : RoomTracker :=
            { room_id := room_id, ydoc := ydoc, active_users := [username] }
          { s with rooms := setA s.rooms room_id room }

/-- Embedding of `_stop_observing_room` (router.py:168): unsubscribe
(errors swallowed) and delete the tracker. -/
def stop_observing_room (s : RouterState) (room_id : String) : RouterState :=
  { s with rooms := eraseA s.rooms room_id }

/-- Embedding of `_maybe_stop_observing_room` (router.py:185). -/
def maybe_stop_observing_room (s : RouterState) (room_id username : String) :
    RouterState :=
  match lookupA s.rooms room_id with
  | none => s
  | some room =>
      let room1 := { room with active_users := discardUser room.active_users username }
      if room1.active_users.isEmpty then
        { s with rooms := eraseA s.rooms room_id }
      else
        { s with rooms := setA s.rooms room_id room1 }

/-- The per-room sweep of `_cleanup_unused_room_observers`: recompute
`active_users` as the users that still have a live observer; `none` means
the tracker is torn down. -/
def sweepRoom (users : List (String × UserTracker)) (rt : RoomTracker) :
    Option RoomTracker :=
  let active := rt.active_users.filter fun u =>
    match lookupA users u with
    | some ut => !ut.observer_ids.isEmpty
    | none => false
  if active.isEmpty then none else some { rt with active_users := active }

/-- Embedding of `_cleanup_unused_room_observers` (router.py:343). -/
def cleanup_unused_room_observers (s : RouterState) : RouterState :=
  { s with rooms := s.rooms.filterMap fun rr =>
      (sweepRoom s.users rr.2).map fun v => (rr.1, v) }

/-- Embedding of `unobserve_notebook_activity` (router.py:287). -/
def unobserve_notebook_activity (s : RouterState) (observer_id : Nat) :
    RouterState × Bool :=
  match lookupA s.observer_callbacks observer_id with
  | none => (s, false)
  | some username =>
      let s1 := { s with observer_callbacks := eraseA s.observer_callbacks observer_id }
      let s2 :=
        match lookupA s1.users username with
        | none => s1
        | some user =>
            let user1 := { user with observer_ids := user.observer_ids.erase observer_id }
            if user1.observer_ids.isEmpty then
              { s1 with users := eraseA s1.users username }
            else
              { s1 with users := setA s1.users username user1 }
      (cleanup_unused_room_observers s2, true)

/-- Embedding of the deferred task `_observe_active_notebook`
(router.py:313).  `awStates` is the global awareness map at the moment
the task runs; `resolve` is `await self._room_id_from_path`; exceptions
are caught at the top of the task. -/
def observe_active_notebook (s : RouterState) (username : String)
    (awStates : List ClientState) (resolve : String → Option String)
    (getDoc : String → Option Nat) : RouterState :=
  match awStates with
  | [] => s
  | st :: rest =>
      if st.username.getD "" ≠ username then
        observe_active_notebook s username rest resolve getDoc
      else
        let active_doc := st.current
        if !(strTruthy active_doc && pyStartsWith (active_doc.getD "") "notebook:") then
          observe_active_notebook s username rest resolve getDoc
        else
          let s1 :=
            match lookupA s.users username with
            | some user =>
                let user1 := { user with current_document := active_doc }
                { s with users := setA s.users username user1 }
            | none => s
          let path := afterColon (active_doc.getD "")
          let room_id := resolve path
          if strTruthy room_id then
            start_observing_room s1 (room_id.getD "") username getDoc
          else
            observe_active_notebook s1 username rest resolve getDoc

/-- The `room_states` initialisation step of `_handle_user_document_switch`
(router.py:420-427): seed the user's per-room state with
`active_cell=None` when absent. -/
def docSwitchInitState (s1 : RouterState) (username current_doc room_id : String) :
    RouterState :=
  match lookupA s1.users username with
  | none => s1
  | some user =>
      if (lookupA user.room_states room_id).isNone then
        let st : RoomUserState :=
          { active_cell := none, notebook_path := some current_doc,
            last_check := 0 }
        let user1 := { user with room_states := setA user.room_states room_id st }
        { s1 with users := setA s1.users username user1 }
      else s1

/-- Embedding of the deferred task `_handle_user_document_switch`
(router.py:401). -/
def handle_user_document_switch (s : RouterState)
    (username current_doc : String) (prev_doc : Option String)
    (resolve : String → Option String) (getDoc : String → Option Nat) :
    RouterState :=
  if (lookupA s.users username).isNone then s
  else
    let path := afterColon current_doc
    let room_id? := resolve path
    if !(strTruthy room_id?) then s
    else
      let room_id := room_id?.getD ""
      let s1 := start_observing_room s room_id username getDoc
      let s2 := docSwitchInitState s1 username current_doc room_id
      if strTruthy prev_doc then
        let old_room_id? := resolve (afterColon (prev_doc.getD ""))
        if strTruthy old_room_id? then
          maybe_stop_observing_room s2 (old_room_id?.getD "") username
        else s2
      else s2

/-! ## Activity detection (router.py:439-525) -/

/-- Embedding of `_on_notebook_change` (router.py:439): a timestamp-only
side effect. -/
def on_notebook_change (s : RouterState) (room_id : String) (now : ℤ) :
    RouterState :=
  match lookupA s.rooms room_id with
  | none => s
  | some room =>
      { s with rooms := setA s.rooms room_id { room with last_edit_time := now } }

/-- The default for `user.room_states.get(room_id, {})` with the
`.get(..)` fallbacks of the loop body. -/
def defaultRUS : RoomUserState :=
  { active_cell := none, notebook_path := none, last_check := 0 }

/-- One iteration of the `for _, state in awareness_states.items()` loop
of `_on_awareness_change` (router.py:462-506); returns the new state and
the `_notify_notebook_activity_observers` events it fires. -/
def processAwEntry (room_id : String) (now : ℤ) (s : RouterState)
    (st : ClientState) : RouterState × List Notif :=
  if !(strTruthy st.username) then (s, [])
  else
    let username := st.username.getD ""
    match lookupA s.users username with
    | none => (s, [])
    | some user =>
        let active_cell := st.activeCellId
        let notebook_path := st.notebookPath
        if !(strTruthy active_cell) then (s, [])
        else
          match lookupA s.rooms room_id with
          | none => (s, [])
          | some room =>
              let prev := (lookupA user.room_states room_id).getD defaultRUS
              let newRUS : RoomUserState :=
                { active_cell := active_cell, notebook_path := notebook_path,
                  last_check := now }
              if !(strTruthy prev.active_cell) then
                let user1 := { user with room_states := setA user.room_states room_id newRUS }
                ({ s with users := setA s.users username user1 }, [])
              else if prev.active_cell ≠ active_cell then
                let fire :=
                  room.last_edit_time > prev.last_check ∧
                    now - room.last_trigger_time ≥ s.trigger_cooldown
                let s1 :=
                  if fire then
                    { s with rooms := setA s.rooms room_id { room with last_trigger_time := now } }
                  else s
                let notifs : List Notif :=
                  if fire then
                    [{ username := username,
                       prev_active_cell := prev.active_cell.getD "",
                       notebook_path := notebook_path }]
                  else []
                let user1 := { user with room_states := setA user.room_states room_id newRUS }
                ({ s1 with users := setA s1.users username user1 }, notifs)
              else (s, [])

/-- The `for _, state in awareness_states.items()` loop of
`_on_awareness_change`, iterating `processAwEntry` in map order and
collecting fired notifications in firing order. -/
def awLoop (room_id : String) (now : ℤ) :
    RouterState → List ClientState → RouterState × List Notif
  | s, [] => (s, [])
  | s, st :: rest =>
      let r := processAwEntry room_id now s st
      let r2 := awLoop room_id now r.1 rest
      (r2.1, r.2 ++ r2.2)

/-- Embedding of `_on_awareness_change` (router.py:449): guard on room
membership, then run the loop body over the awareness entries. -/
def on_awareness_change (room_id : String) (states : List ClientState)
    (now : ℤ) (s : RouterState) : RouterState × List Notif :=
  if (lookupA s.rooms room_id).isNone then (s, [])
  else awLoop room_id now s states

/-- Embedding of `_notify_notebook_activity_observers` (router.py:508):
fan one fired event out to the callbacks of the user's live observer
ids. -/
def notify_notebook_activity_observers (s : RouterState) (n : Notif) :
    List (Nat × Notif) :=
  match lookupA s.users n.username with
  | none => []
  | some user =>
      user.observer_ids.filterMap fun oid =>
        if (lookupA s.observer_callbacks oid).isSome then some (oid, n) else none

/-- One delivered presence batch for one room, at one wall-clock time. -/
structure AwEvent where
  room_id : String
  states : List ClientState
  now : ℤ

/-- A fired notification together with the room and time it fired at. -/
structure TaggedNotif where
  time : ℤ
  room_id : String
  notif : Notif
deriving Repr, DecidableEq

/-- Run a sequence of presence batches through `_on_awareness_change`,
collecting every fired notification tagged with its room and time. -/
def runAwareness : RouterState → List AwEvent → List TaggedNotif
  | _, [] => []
  | s, e :: es =>
      let r := on_awareness_change e.room_id e.states e.now s
      (r.2.map fun n => { time := e.now, room_id := e.room_id, notif := n })
        ++ runAwareness r.1 es

/-! ## Operation sequences (for lifecycle invariants) -/

/-- The attach/detach and observer operations that touch the `users` /
`rooms` registries, with external lookups (`getDoc`, `resolve`) and the
awareness snapshot a deferred task sees supplied as parameters. -/
inductive RouterOp where
  | startObserving (room_id username : String) (getDoc : String → Option Nat)
  | maybeStop (room_id username : String)
  | stopObserving (room_id : String)
  | cleanupUnused
  | observeActivity (username : String)
  | unobserveActivity (observer_id : Nat)
  | docSwitch (username current_doc : String) (prev_doc : Option String)
      (resolve : String → Option String) (getDoc : String → Option Nat)
  | activeNotebookTask (username : String) (awStates : List ClientState)
      (resolve : String → Option String) (getDoc : String → Option Nat)
  | awarenessChange (room_id : String) (states : List ClientState) (now : ℤ)
  | notebookChange (room_id : String) (now : ℤ)

/-- Interpret one operation (callback fan-outs and return values are
dropped; only the registry state matters here). -/
def applyOp (s : RouterState) : RouterOp → RouterState
  | .startObserving room_id username getDoc =>
      start_observing_room s room_id username getDoc
  | .maybeStop room_id username => maybe_stop_observing_room s room_id username
  | .stopObserving room_id => stop_observing_room s room_id
  | .cleanupUnused => cleanup_unused_room_observers s
  | .observeActivity username => (observe_notebook_activity s username).1
  | .unobserveActivity observer_id => (unobserve_notebook_activity s observer_id).1
  | .docSwitch username current_doc prev_doc resolve getDoc =>
      handle_user_document_switch s username current_doc prev_doc resolve getDoc
  | .activeNotebookTask username awStates resolve getDoc =>
      observe_active_notebook s username awStates resolve getDoc
  | .awarenessChange room_id states now =>
      (on_awareness_change room_id states now s).1
  | .notebookChange room_id now => on_notebook_change s room_id now

/-- Interpret a sequence of operations from a starting state. -/
def applyOps (s : RouterState) (ops : List RouterOp) : RouterState :=
  ops.foldl applyOp s

/-! ## Concrete fixtures used by witnesses and counterexamples -/

/-- A router with slash patterns `help` ↦ callback 3 and `export` ↦
callback 4, and plain-message callback 9, all in room `room-a`. -/
def fxSlash : RouterState :=
  observe_chat_msg
    (observe_slash_cmd_msg
      (observe_slash_cmd_msg initState "room-a" "help" 3) "room-a" "export" 4)
    "room-a" 9

def msgHelp : Message :=
  { id := "1", body := "/help topic", sender := "user", time := 123 }

def msgExport : Message :=
  { id := "2", body := "/export", sender := "user", time := 124 }

def msgHelpDeleted : Message := { msgHelp with deleted := true }

def msgPlainDeleted : Message :=
  { id := "4", body := "Hello world", sender := "user", time := 126,
    deleted := true }

/-- User `u1` last seen on `cellA` in room `r1` at time 0. -/
def fxUser1 : UserTracker :=
  { username := "u1", observer_ids := [0],
    room_states := [("r1", ⟨some "cellA", some "nb", 0⟩)] }

/-- User `u2` last seen on `cellX` in room `r1` at time 0. -/
def fxUser2 : UserTracker :=
  { username := "u2", observer_ids := [1],
    room_states := [("r1", ⟨some "cellX", some "nb", 0⟩)] }

/-- Room `r1`, last edited at time 5, never triggered. -/
def fxRoom1 : RoomTracker :=
  { room_id := "r1", ydoc := 1, last_edit_time := 5, last_trigger_time := 0,
    active_users := ["u1", "u2"] }

/-- Activity fixture: both users tracked in room `r1`. -/
def fxAct : RouterState :=
  { initState with
      users := [("u1", fxUser1), ("u2", fxUser2)],
      rooms := [("r1", fxRoom1)],
      observer_callbacks := [(0, "u1"), (1, "u2")] }

/-- `u1` moves to `cellB` in `r1`. -/
def fxStU1 : ClientState :=
  { username := some "u1", activeCellId := some "cellB",
    notebookPath := some "nb" }

/-- `u2` moves to `cellY` in `r1`. -/
def fxStU2 : ClientState :=
  { username := some "u2", activeCellId := some "cellY",
    notebookPath := some "nb" }

/-- The room resolver the detached-user scenario sees. -/
def fxResolve : String → Option String :=
  fun p => if p = "nb.ipynb" then some "room1" else none

/-- The document resolver the detached-user scenario sees. -/
def fxGetDoc : String → Option Nat :=
  fun r => if r = "room1" then some 7 else none

/-- A user registers an activity observer and unregisters it again before
the deferred `_observe_active_notebook` task it scheduled gets to run. -/
def fxDetached : RouterState :=
  applyOps initState [.observeActivity "alice", .unobserveActivity 0]

/-- The global awareness snapshot the late task sees: `alice` focused on
a notebook. -/
def fxAwAlice : List ClientState :=
  [{ username := some "alice", current := some "notebook:nb.ipynb" }]

/-- Cleanup counterexample fixture: one registered notebook-reset
observer and one live activity registration. -/
def fxC8 : RouterState :=
  { initState with
      notebook_reset_observers := [5],
      observer_callbacks := [(0, "alice")],
      users := [("alice", { username := "alice", observer_ids := [0] })] }

/-- Fixture for the unobserve sweep: `bob` holds observer id 0 and is the
only active user of room `roomB`. -/
def fxC7 : RouterState :=
  start_observing_room (observe_notebook_activity initState "bob").1
    "roomB" "bob" (fun _ => some 3)

/-- Two users of room `r1` change cells at time 10, then `u1` changes
again at time 10 (still inside the window) and once more at 12. -/
def fxEvents : List AwEvent :=
  [⟨"r1", [fxStU1, fxStU2], 10⟩,
   ⟨"r1", [{ fxStU1 with activeCellId := some "cellC" }], 10⟩,
   ⟨"r1", [{ fxStU1 with activeCellId := some "cellD" }], 12⟩]

/-- Every tracked room has a non-empty `active_users` set (entry-wise
form of the C6 invariant). -/
def RoomsNonempty (s : RouterState) : Prop :=
  ∀ p ∈ s.rooms, p.2.active_users ≠ []

/-! ## Theorems -/

/-- **C1**: the claim says every inserted item flagged `deleted=true` is
discarded before routing, and the repository's own test
(`test_deleted_messages_not_routed`) asserts the same; but
`_on_message_change` filters only `raw_time`, so a `deleted=true` insert
is delivered to slash-command observers (and to plain-message observers),
while `raw_time=true` inserts are indeed dropped. -/
theorem C1_deleted_message_reaches_observers :
    on_message_change fxSlash "room-a" [⟨some [msgHelpDeleted]⟩] =
      [.slashCmd 3 "room-a" "help" { msgHelpDeleted with body := "topic" }] ∧
    on_message_change fxSlash "room-a" [⟨some [msgPlainDeleted]⟩] =
      [.chatMsg 9 "room-a" msgPlainDeleted] ∧
    on_message_change fxSlash "room-a"
      [⟨some [{ msgHelp with raw_time := true }]⟩] = [] := by
  decide

/-- **C9**: the claim says every late-completing resolution task leaves
`users` and `rooms` unchanged once its target user has been detached.
`_handle_user_document_switch` does check membership and is a no-op, but
`_observe_active_notebook` only guards its `current_document` write: run
after `alice` was unobserved (empty `users`, empty `rooms`), it still
creates a RoomTracker for `room1` with `alice` as an active user. -/
theorem C9_late_task_mutates_after_detach :
    fxDetached.users = [] ∧ fxDetached.rooms = [] ∧
    lookupA (observe_active_notebook fxDetached "alice" fxAwAlice
        fxResolve fxGetDoc).rooms "room1" =
      some { room_id := "room1", ydoc := 7, active_users := ["alice"] } ∧
    handle_user_document_switch fxDetached "alice" "notebook:nb.ipynb" none
      fxResolve fxGetDoc = fxDetached := by
  decide

/-- **C10**: resetting the chat of a never-connected room stores the new
document as the active chat and fans out to chat-reset observers without
touching the delta subscriptions; a later `connect_chat` then bails out
as "already connected" without subscribing or notifying, so deltas from
that room never reach the router. -/
theorem C10_reset_then_connect_never_routes (s : RouterState)
    (room_id : String) (ychat ychat2 : Nat)
    (hA : lookupA s.active_chats room_id = none)
    (hM : lookupA s.message_observers room_id = none) :
    lookupA (on_chat_reset s room_id ychat).1.active_chats room_id = some ychat ∧
    (on_chat_reset s room_id ychat).1.message_observers = s.message_observers ∧
    (on_chat_reset s room_id ychat).2 =
      s.chat_reset_observers.map (fun cb => .chatReset cb room_id ychat) ∧
    connect_chat (on_chat_reset s room_id ychat).1 room_id ychat2 =
      ((on_chat_reset s room_id ychat).1, []) ∧
    (∀ events, deltasReachRouter (on_chat_reset s room_id ychat).1 room_id
      events = []) ∧
    (∀ events, deltasReachRouter
      (connect_chat (on_chat_reset s room_id ychat).1 room_id ychat2).1
      room_id events = []) := by
  refine ⟨?_, rfl, rfl, ?_, ?_, ?_⟩
  · simp [on_chat_reset, lookupA_setA_self]
  · simp [connect_chat, on_chat_reset, lookupA_setA_self]
  · intro events
    simp [deltasReachRouter, on_chat_reset, hM]
  · intro events
    simp [deltasReachRouter, connect_chat, on_chat_reset,
      lookupA_setA_self, hM]

/-- Witness for C10 at a concrete never-connected room. -/
theorem C10_reset_then_connect_never_routes_witness :
    connect_chat (on_chat_reset initState "rX" 11).1 "rX" 12 =
      ((on_chat_reset initState "rX" 11).1, []) :=
  (C10_reset_then_connect_never_routes initState "rX" 11 12 rfl rfl).2.2.2.1

/-- **C2**: a message whose first token starts with `/` is routed to the
matching slash-command observers with the clean command (leading `/`
stripped) and a copy of the message whose body is the remainder of the
first whitespace split (empty when there is none), all other fields
identical; `"/help topic"` against pattern `help` gives
`("help", body="topic")` and `"/export"` against `export` gives body
`""`.  The original `Message` value is never mutated: the trimmed
message is a distinct copy (`dataclasses.replace`). -/
theorem C2_slash_command_trimming :
    (∀ (s : RouterState) (room_id : String) (msg : Message) (w : String),
      get_first_word msg.body = some w → pyStartsWith w "/" = true →
      route_message s room_id msg =
        notify_slash_cmd_observers s room_id
          { msg with body := (splitNone1 msg.body).getD 1 "" } (pyDrop1 w) ∧
      ({ msg with body := (splitNone1 msg.body).getD 1 "" } : Message).id = msg.id ∧
      ({ msg with body := (splitNone1 msg.body).getD 1 "" } : Message).sender = msg.sender ∧
      ({ msg with body := (splitNone1 msg.body).getD 1 "" } : Message).time = msg.time ∧
      ({ msg with body := (splitNone1 msg.body).getD 1 "" } : Message).mentions = msg.mentions ∧
      ({ msg with body := (splitNone1 msg.body).getD 1 "" } : Message).attachments = msg.attachments ∧
      ({ msg with body := (splitNone1 msg.body).getD 1 "" } : Message).deleted = msg.deleted) ∧
    route_message fxSlash "room-a" msgHelp =
      [.slashCmd 3 "room-a" "help" { msgHelp with body := "topic" }] ∧
    route_message fxSlash "room-a" msgExport =
      [.slashCmd 4 "room-a" "export" { msgExport with body := "" }] := by
  refine ⟨?_, by decide, by decide⟩
  intro s room_id msg w h hw
  cases hsp : splitNone1 msg.body with
  | nil =>
      exfalso
      unfold get_first_word at h
      rw [hsp] at h
      simp at h
  | cons a rest =>
      have ha : a = w := by
        unfold get_first_word at h
        rw [hsp] at h
        simpa using h
      subst ha
      refine ⟨?_, rfl, rfl, rfl, rfl, rfl, rfl⟩
      unfold route_message
      unfold get_first_word at h ⊢
      rw [hsp] at h ⊢
      simp only [List.head?] at h
      simp only [List.head?, List.headD, List.getD, hw, if_true]

/-- Witness for C2 at `"/export"` with pattern `export`. -/
theorem C2_slash_command_trimming_witness :
    route_message fxSlash "room-a" msgExport =
      notify_slash_cmd_observers fxSlash "room-a"
        { msgExport with body := (splitNone1 msgExport.body).getD 1 "" }
        (pyDrop1 "/export") :=
  ((C2_slash_command_trimming.1 fxSlash "room-a" msgExport "/export"
    (by decide) (by decide)).1)

/-- Unfolding step: matching a factor sequence threads the end positions
of the head factor through the tail. -/
theorem ends_seqList_cons (w : List Char) (x : Regex) (xs : List Regex)
    (i : Nat) :
    ends w (seqList (x :: xs)) i = (ends w x i).flatMap (ends w (seqList xs)) :=
  rfl

/-- Appending the `$` assertion to a factor sequence keeps exactly the
end positions that sit at the end of the word. -/
theorem ends_seqList_append_eos (w : List Char) (xs : List Regex) (i : Nat) :
    ends w (seqList (xs ++ [.eos])) i =
      (ends w (seqList xs) i).filter (fun j => j == w.length) := by
  induction xs generalizing i with
  | nil =>
      by_cases h : i = w.length
      · subst h
        simp [seqList, ends]
      · have hb : (i == w.length) = false := by simpa using h
        simp [seqList, ends, h, hb, List.filter]
  | cons x xs ih =>
      rw [List.cons_append, ends_seqList_cons, ends_seqList_cons,
        List.filter_flatMap]
      congr 1
      funext j
      exact ih j

/-- A filter for one value is non-empty exactly when the value occurs. -/
theorem filter_beq_isEmpty_eq_contains (L : List Nat) (n : Nat) :
    (!(L.filter (fun j => j == n)).isEmpty) = L.contains n := by
  induction L with
  | nil => rfl
  | cons a L ih =>
      by_cases h : a = n
      · subst h
        simp [List.filter]
      · have hb1 : (a == n) = false := by simpa using h
        have hb2 : (n == a) = false := by simpa using Ne.symm h
        simp [List.filter, hb1, hb2, ih, List.contains_cons]
        intro he
        exact absurd he.symm h

/-- **C3 counterexample**: the claim says `matches_pattern` is anchored
full-regex matching, but `re.match(f"^{pattern}$", word)` mis-anchors a
pattern with a top-level alternation: `"a|b"` becomes `^a|b$`, whose
first branch `^a` matches a prefix of `"ax"`, so the code returns true
while the anchored full match of `a|b` against `"ax"` is false. -/
theorem C3_top_level_alternation_counterexample :
    matches_pattern "ax" "a|b" = true ∧ specMatches "ax" "a|b" = false := by
  decide

/-- **C3 (amended)**: for a pattern that compiles to a single top-level
alternation branch, `matches_pattern` agrees with anchored full-regex
matching; a pattern that fails to compile matches nothing for every
token; and all of the claim's concrete examples hold. -/
theorem C3_anchored_regex_matching :
    (∀ (word pattern : String) (b : List Regex),
      parsePattern pattern.data = some [b] →
      matches_pattern word pattern = specMatches word pattern) ∧
    (∀ word pattern : String,
      parsePattern pattern.data = none → matches_pattern word pattern = false) ∧
    matches_pattern "ai-generate" "ai-.*" = true ∧
    matches_pattern "ai-review" "ai-.*" = true ∧
    matches_pattern "help" "ai-.*" = false ∧
    matches_pattern "export-json" "export-(json|csv)" = true ∧
    matches_pattern "export-csv" "export-(json|csv)" = true ∧
    matches_pattern "export-pdf" "export-(json|csv)" = false ∧
    (∀ word : String, matches_pattern word "[invalid" = false) ∧
    (∀ word : String, matches_pattern word "export-(json|csv" = false) := by
  refine ⟨?_, ?_, by decide, by decide, by decide, by decide, by decide,
    by decide, ?_, ?_⟩
  · intro word pattern b h
    unfold matches_pattern specMatches
    rw [h]
    show (!(ends word.data (buildAlt (wrapAnchor [b])) 0).isEmpty) =
      (ends word.data (buildAlt [b]) 0).contains word.data.length
    simp only [wrapAnchor, buildAlt]
    rw [ends_seqList_cons]
    have h0 : ends word.data .bos 0 = [0] := rfl
    rw [h0]
    simp only [List.flatMap_cons, List.flatMap_nil, List.append_nil]
    rw [ends_seqList_append_eos]
    exact filter_beq_isEmpty_eq_contains _ _
  · intro word pattern h
    unfold matches_pattern
    rw [h]
  · intro word
    have h : parsePattern ("[invalid" : String).data = none := by decide
    unfold matches_pattern
    rw [h]
  · intro word
    have h : parsePattern ("export-(json|csv" : String).data = none := by decide
    unfold matches_pattern
    rw [h]

/-- Witness for C3 on the single-branch pattern `ai-.*`. -/
theorem C3_anchored_regex_matching_witness :
    matches_pattern "ai-generate" "ai-.*" = specMatches "ai-generate" "ai-.*" :=
  C3_anchored_regex_matching.1 "ai-generate" "ai-.*"
    [.chr 'a', .chr 'i', .chr '-', .star .dot] (by decide)

theorem lookupA_none_iff_keys {α β : Type} [DecidableEq α]
    (l : List (α × β)) (k : α) :
    lookupA l k = none ↔ k ∉ l.map Prod.fst := by
  induction l with
  | nil => simp [lookupA]
  | cons p rest ih =>
      obtain ⟨k0, v⟩ := p
      by_cases h : k = k0 <;> simp [lookupA, h, ih]

theorem keys_eraseA_sublist {α β : Type} [DecidableEq α]
    (l : List (α × β)) (k : α) :
    ((eraseA l k).map Prod.fst).Sublist (l.map Prod.fst) := by
  induction l with
  | nil => simp [eraseA]
  | cons p rest ih =>
      obtain ⟨k0, v⟩ := p
      by_cases h : k = k0
      · simp [eraseA, h]
      · simpa [eraseA, h] using ih.cons₂ k0

theorem lookupA_eraseA_self {α β : Type} [DecidableEq α]
    (l : List (α × β)) (k : α) (h : (l.map Prod.fst).Nodup) :
    lookupA (eraseA l k) k = none := by
  induction l with
  | nil => simp [eraseA, lookupA]
  | cons p rest ih =>
      obtain ⟨k0, v⟩ := p
      simp only [List.map_cons, List.nodup_cons] at h
      by_cases hk : k = k0
      · subst hk
        simp only [eraseA, if_pos rfl]
        exact (lookupA_none_iff_keys rest k).2 h.1
      · simp only [eraseA, if_neg hk, lookupA, if_neg hk]
        exact ih h.2

theorem lookupA_eraseA_ne {α β : Type} [DecidableEq α]
    (l : List (α × β)) (k k' : α) (h : k' ≠ k) :
    lookupA (eraseA l k) k' = lookupA l k' := by
  induction l with
  | nil => simp [eraseA]
  | cons p rest ih =>
      obtain ⟨k0, v⟩ := p
      by_cases hk : k = k0
      · subst hk
        simp [eraseA, lookupA, h]
      · by_cases hk' : k' = k0 <;> simp [eraseA, lookupA, hk, hk', ih]

/-- `disconnect_chat` touches only `active_chats` and
`message_observers`. -/
theorem disconnect_chat_preserves (s : RouterState) (k : String) :
    (disconnect_chat s k).users = s.users ∧
    (disconnect_chat s k).rooms = s.rooms ∧
    (disconnect_chat s k).observer_callbacks = s.observer_callbacks ∧
    (disconnect_chat s k).notebook_reset_observers = s.notebook_reset_observers ∧
    (disconnect_chat s k).chat_init_observers = s.chat_init_observers ∧
    (disconnect_chat s k).slash_cmd_observers = s.slash_cmd_observers ∧
    (disconnect_chat s k).chat_msg_observers = s.chat_msg_observers ∧
    (disconnect_chat s k).chat_reset_observers = s.chat_reset_observers := by
  unfold disconnect_chat
  split
  · exact ⟨rfl, rfl, rfl, rfl, rfl, rfl, rfl, rfl⟩
  · split <;> exact ⟨rfl, rfl, rfl, rfl, rfl, rfl, rfl, rfl⟩

/-- The disconnect pass of `cleanup` touches only `active_chats` and
`message_observers`. -/
theorem foldl_disconnect_preserves (keys : List String) :
    ∀ s : RouterState,
    (keys.foldl disconnect_chat s).users = s.users ∧
    (keys.foldl disconnect_chat s).rooms = s.rooms ∧
    (keys.foldl disconnect_chat s).observer_callbacks = s.observer_callbacks ∧
    (keys.foldl disconnect_chat s).notebook_reset_observers =
      s.notebook_reset_observers ∧
    (keys.foldl disconnect_chat s).chat_init_observers = s.chat_init_observers ∧
    (keys.foldl disconnect_chat s).slash_cmd_observers = s.slash_cmd_observers ∧
    (keys.foldl disconnect_chat s).chat_msg_observers = s.chat_msg_observers ∧
    (keys.foldl disconnect_chat s).chat_reset_observers =
      s.chat_reset_observers := by
  induction keys with
  | nil => intro s; exact ⟨rfl, rfl, rfl, rfl, rfl, rfl, rfl, rfl⟩
  | cons k rest ih =>
      intro s
      have h1 := disconnect_chat_preserves s k
      have h2 := ih (disconnect_chat s k)
      simp only [List.foldl_cons]
      exact ⟨h2.1.trans h1.1, h2.2.1.trans h1.2.1,
        h2.2.2.1.trans h1.2.2.1, h2.2.2.2.1.trans h1.2.2.2.1,
        h2.2.2.2.2.1.trans h1.2.2.2.2.1,
        h2.2.2.2.2.2.1.trans h1.2.2.2.2.2.1,
        h2.2.2.2.2.2.2.1.trans h1.2.2.2.2.2.2.1,
        h2.2.2.2.2.2.2.2.trans h1.2.2.2.2.2.2.2⟩

/-- Disconnecting the key of the first connected entry drops exactly that
entry. -/
theorem foldl_disconnect_active (l : List (String × Nat)) :
    ∀ s : RouterState, s.active_chats = l →
    ((l.map Prod.fst).foldl disconnect_chat s).active_chats = [] := by
  induction l with
  | nil =>
      intro s h
      simpa using h
  | cons p tail ih =>
      intro s h
      obtain ⟨k, v⟩ := p
      have h1 : lookupA s.active_chats k = some v := by
        rw [h]; simp [lookupA]
      have h2 : (disconnect_chat s k).active_chats = tail := by
        unfold disconnect_chat
        rw [h1]
        simp only [Option.isNone_some, Bool.false_eq_true, if_false]
        split <;> (show eraseA s.active_chats k = tail; rw [h]; simp [eraseA])
      simpa using ih (disconnect_chat s k) h2

/-- Disconnects never add message observers. -/
theorem disconnect_msg_none (s : RouterState) (k r : String)
    (h : lookupA s.message_observers r = none) :
    lookupA (disconnect_chat s k).message_observers r = none := by
  unfold disconnect_chat
  split
  · exact h
  · split
    · show lookupA (eraseA s.message_observers k) r = none
      rw [lookupA_none_iff_keys] at h ⊢
      exact fun hmem => h ((keys_eraseA_sublist _ _).subset hmem)
    · exact h

theorem foldl_disconnect_msg_none (keys : List String) :
    ∀ (s : RouterState) (r : String),
    lookupA s.message_observers r = none →
    lookupA ((keys.foldl disconnect_chat s).message_observers) r = none := by
  induction keys with
  | nil => intro s r h; exact h
  | cons k rest ih =>
      intro s r h
      simpa using ih (disconnect_chat s k) r (disconnect_msg_none s k r h)

/-- Every room connected at the start of the disconnect pass loses its
message observer. -/
theorem foldl_disconnect_msg (l : List (String × Nat)) :
    ∀ (s : RouterState) (r : String), s.active_chats = l →
    (s.message_observers.map Prod.fst).Nodup →
    (lookupA s.active_chats r).isSome →
    lookupA ((l.map Prod.fst).foldl disconnect_chat s).message_observers r =
      none := by
  induction l with
  | nil =>
      intro s r h hnd hr
      rw [h] at hr
      simp [lookupA] at hr
  | cons p tail ih =>
      intro s r h hnd hr
      obtain ⟨k, v⟩ := p
      have h1 : lookupA s.active_chats k = some v := by
        rw [h]; simp [lookupA]
      have hact : (disconnect_chat s k).active_chats = tail := by
        unfold disconnect_chat
        rw [h1]
        simp only [Option.isNone_some, Bool.false_eq_true, if_false]
        split <;> (show eraseA s.active_chats k = tail; rw [h]; simp [eraseA])
      have hmsgnd : ((disconnect_chat s k).message_observers.map Prod.fst).Nodup := by
        unfold disconnect_chat
        split
        · exact hnd
        · split
          · exact List.Nodup.sublist (keys_eraseA_sublist _ _) hnd
          · exact hnd
      by_cases hrk : r = k
      · subst hrk
        have hnone : lookupA (disconnect_chat s r).message_observers r = none := by
          unfold disconnect_chat
          rw [h1]
          simp only [Option.isNone_some, Bool.false_eq_true, if_false]
          split
          · exact lookupA_eraseA_self _ _ hnd
          · rename_i hmo
            simpa using hmo
        simpa using foldl_disconnect_msg_none (tail.map Prod.fst) _ r hnone
      · have hr' : (lookupA (disconnect_chat s k).active_chats r).isSome := by
          rw [hact]
          rw [h] at hr
          simpa [lookupA, hrk] using hr
        simpa using ih (disconnect_chat s k) r hact hmsgnd hr'

/-- **C8 counterexample**: the claim says that after `cleanup()` every
registry including every observer registration is empty, but `cleanup`
does not clear `notebook_reset_observers` nor the notebook-activity
registrations (`_observer_callbacks`). -/
theorem C8_cleanup_counterexample :
    (cleanup fxC8).observer_callbacks ≠ [] ∧
    (cleanup fxC8).notebook_reset_observers ≠ [] := by
  decide

/-- **C8 (amended)**: `cleanup` disconnects every connected chat and
clears the chat-init, slash-command, chat-message and chat-reset
registries; a second call is a no-op; notebook-reset observers,
notebook-activity registrations and the user/room trackers are left in
place. -/
theorem C8_cleanup_clears_chat_registries (s : RouterState) :
    (cleanup s).active_chats = [] ∧
    (cleanup s).chat_init_observers = [] ∧
    (cleanup s).slash_cmd_observers = [] ∧
    (cleanup s).chat_msg_observers = [] ∧
    (cleanup s).chat_reset_observers = [] ∧
    (cleanup s).notebook_reset_observers = s.notebook_reset_observers ∧
    (cleanup s).observer_callbacks = s.observer_callbacks ∧
    (cleanup s).users = s.users ∧
    (cleanup s).rooms = s.rooms ∧
    ((s.message_observers.map Prod.fst).Nodup → ∀ r,
      (lookupA s.active_chats r).isSome →
      lookupA (cleanup s).message_observers r = none) ∧
    cleanup (cleanup s) = cleanup s := by
  have hpres := foldl_disconnect_preserves (s.active_chats.map Prod.fst) s
  have hact : (cleanup s).active_chats = [] :=
    foldl_disconnect_active s.active_chats s rfl
  refine ⟨hact, rfl, rfl, rfl, rfl, hpres.2.2.2.1, hpres.2.2.1,
    hpres.1, hpres.2.1, ?_, ?_⟩
  · intro hnd r hr
    exact foldl_disconnect_msg s.active_chats s r rfl hnd hr
  · show cleanup (cleanup s) = cleanup s
    conv_lhs => rw [cleanup.eq_def]
    rw [hact]
    rfl

/-- Witness for C8 at a concrete connected room. -/
theorem C8_cleanup_clears_chat_registries_witness :
    lookupA (cleanup (connect_chat initState "rY" 21).1).message_observers
      "rY" = none :=
  (C8_cleanup_clears_chat_registries (connect_chat initState "rY" 21).1).2.2.2.2.2.2.2.2.2.1
    (by decide) "rY" (by decide)

/-- Branch-by-branch characterisation of the `_on_awareness_change` loop
body for a tracked user with a truthy reported cell in a tracked room. -/
theorem processAwEntry_spec (room_id : String) (now : ℤ) (s : RouterState)
    (st : ClientState) (u ac : String) (ut : UserTracker) (rt : RoomTracker)
    (huv : st.username = some u) (hu : strTruthy st.username = true)
    (hut : lookupA s.users u = some ut)
    (hacv : st.activeCellId = some ac) (hac : strTruthy st.activeCellId = true)
    (hrt : lookupA s.rooms room_id = some rt) :
    (strTruthy ((lookupA ut.room_states room_id).getD defaultRUS).active_cell = true →
     ((lookupA ut.room_states room_id).getD defaultRUS).active_cell ≠ some ac →
     rt.last_edit_time > ((lookupA ut.room_states room_id).getD defaultRUS).last_check →
     now - rt.last_trigger_time ≥ s.trigger_cooldown →
     processAwEntry room_id now s st =
       ({ s with rooms := setA s.rooms room_id { rt with last_trigger_time := now }, users := setA s.users u { ut with room_states := setA ut.room_states room_id ⟨some ac, st.notebookPath, now⟩ } },
        [⟨u, ((lookupA ut.room_states room_id).getD defaultRUS).active_cell.getD "", st.notebookPath⟩])) ∧
    (strTruthy ((lookupA ut.room_states room_id).getD defaultRUS).active_cell = true →
     ((lookupA ut.room_states room_id).getD defaultRUS).active_cell ≠ some ac →
     ¬(rt.last_edit_time > ((lookupA ut.room_states room_id).getD defaultRUS).last_check ∧
        now - rt.last_trigger_time ≥ s.trigger_cooldown) →
     processAwEntry room_id now s st =
       ({ s with users := setA s.users u { ut with room_states := setA ut.room_states room_id ⟨some ac, st.notebookPath, now⟩ } }, [])) ∧
    (strTruthy ((lookupA ut.room_states room_id).getD defaultRUS).active_cell = true →
     ((lookupA ut.room_states room_id).getD defaultRUS).active_cell = some ac →
     processAwEntry room_id now s st = (s, [])) ∧
    (strTruthy ((lookupA ut.room_states room_id).getD defaultRUS).active_cell = false →
     processAwEntry room_id now s st =
       ({ s with users := setA s.users u { ut with room_states := setA ut.room_states room_id ⟨some ac, st.notebookPath, now⟩ } }, [])) := by
  rw [huv] at hu
  rw [hacv] at hac
  refine ⟨?_, ?_, ?_, ?_⟩
  · intro hA hB hC hD
    unfold processAwEntry
    simp [hu, hac, huv, hacv, hut, hrt, hA, hB, hC, hD]
  · intro hA hB hCD
    unfold processAwEntry
    simp [hu, hac, huv, hacv, hut, hrt, hA, hB, hCD]
  · intro hA hB
    unfold processAwEntry
    simp [hu, hac, huv, hacv, hut, hrt, hA, hB]
  · intro hA
    unfold processAwEntry
    simp [hu, hac, huv, hacv, hut, hrt, hA]

/-- **C5**: for a tracked user and tracked room, the presence callback
fires iff a stored active cell exists, the reported cell differs, the
room was edited after the user's stored check time, and the cooldown has
elapsed; firing stamps `last_trigger_time := now` and emits exactly
`(username, previous cell, notebook path)`; any cell change overwrites
the stored `(active_cell, notebook_path, last_check)` triple with the
new values; an unchanged cell leaves the whole state untouched; a first
observation only records the triple. -/
theorem C5_activity_gate (room_id : String) (now : ℤ) (s : RouterState)
    (st : ClientState) (u ac : String) (ut : UserTracker) (rt : RoomTracker)
    (huv : st.username = some u) (hu : strTruthy st.username = true)
    (hut : lookupA s.users u = some ut)
    (hacv : st.activeCellId = some ac) (hac : strTruthy st.activeCellId = true)
    (hrt : lookupA s.rooms room_id = some rt) :
    ((processAwEntry room_id now s st).2 ≠ [] ↔
      (strTruthy ((lookupA ut.room_states room_id).getD defaultRUS).active_cell = true ∧
       ((lookupA ut.room_states room_id).getD defaultRUS).active_cell ≠ some ac ∧
       rt.last_edit_time > ((lookupA ut.room_states room_id).getD defaultRUS).last_check ∧
       now - rt.last_trigger_time ≥ s.trigger_cooldown)) ∧
    ((processAwEntry room_id now s st).2 ≠ [] →
      (processAwEntry room_id now s st).2 =
        [⟨u, ((lookupA ut.room_states room_id).getD defaultRUS).active_cell.getD "", st.notebookPath⟩] ∧
      lookupA (processAwEntry room_id now s st).1.rooms room_id =
        some { rt with last_trigger_time := now }) ∧
    (strTruthy ((lookupA ut.room_states room_id).getD defaultRUS).active_cell = true →
     ((lookupA ut.room_states room_id).getD defaultRUS).active_cell ≠ some ac →
     lookupA (processAwEntry room_id now s st).1.users u =
       some { ut with room_states := setA ut.room_states room_id ⟨some ac, st.notebookPath, now⟩ }) ∧
    (strTruthy ((lookupA ut.room_states room_id).getD defaultRUS).active_cell = true →
     ((lookupA ut.room_states room_id).getD defaultRUS).active_cell = some ac →
     processAwEntry room_id now s st = (s, [])) ∧
    (strTruthy ((lookupA ut.room_states room_id).getD defaultRUS).active_cell = false →
     (processAwEntry room_id now s st).2 = [] ∧
     (processAwEntry room_id now s st).1.rooms = s.rooms ∧
     lookupA (processAwEntry room_id now s st).1.users u =
       some { ut with room_states := setA ut.room_states room_id ⟨some ac, st.notebookPath, now⟩ }) := by
  obtain ⟨h2, h3, h4, h5⟩ :=
    processAwEntry_spec room_id now s st u ac ut rt huv hu hut hacv hac hrt
  have hforward : (processAwEntry room_id now s st).2 ≠ [] →
      strTruthy ((lookupA ut.room_states room_id).getD defaultRUS).active_cell = true ∧
      ((lookupA ut.room_states room_id).getD defaultRUS).active_cell ≠ some ac ∧
      rt.last_edit_time > ((lookupA ut.room_states room_id).getD defaultRUS).last_check ∧
      now - rt.last_trigger_time ≥ s.trigger_cooldown := by
    intro hne
    by_cases hA : strTruthy ((lookupA ut.room_states room_id).getD defaultRUS).active_cell = true
    · by_cases hB : ((lookupA ut.room_states room_id).getD defaultRUS).active_cell = some ac
      · rw [h4 hA hB] at hne
        simp at hne
      · by_cases hCD : rt.last_edit_time > ((lookupA ut.room_states room_id).getD defaultRUS).last_check ∧
            now - rt.last_trigger_time ≥ s.trigger_cooldown
        · exact ⟨hA, hB, hCD.1, hCD.2⟩
        · rw [h3 hA hB hCD] at hne
          simp at hne
    · rw [h5 (Bool.eq_false_iff.mpr hA)] at hne
      simp at hne
  refine ⟨⟨hforward, ?_⟩, ?_, ?_, h4, ?_⟩
  · rintro ⟨hA, hB, hC, hD⟩
    rw [h2 hA hB hC hD]
    simp
  · intro hne
    obtain ⟨hA, hB, hC, hD⟩ := hforward hne
    rw [h2 hA hB hC hD]
    exact ⟨rfl, lookupA_setA_self _ _ _⟩
  · intro hA hB
    by_cases hCD : rt.last_edit_time > ((lookupA ut.room_states room_id).getD defaultRUS).last_check ∧
        now - rt.last_trigger_time ≥ s.trigger_cooldown
    · rw [h2 hA hB hCD.1 hCD.2]
      exact lookupA_setA_self _ _ _
    · rw [h3 hA hB hCD]
      exact lookupA_setA_self _ _ _
  · intro hA
    rw [h5 hA]
    exact ⟨rfl, rfl, lookupA_setA_self _ _ _⟩

/-- Witness for C5: `u1` moves from `cellA` to `cellB` in `r1` after an
edit at time 5, with the cooldown elapsed at time 10; the gate fires. -/
theorem C5_activity_gate_witness :
    (processAwEntry "r1" 10 fxAct fxStU1).2 ≠ [] :=
  (C5_activity_gate "r1" 10 fxAct fxStU1 "u1" "cellB" fxUser1 fxRoom1
    rfl rfl (by decide) rfl rfl (by decide)).1.2 (by decide)

/-- The loop body never changes the cooldown setting. -/
theorem processAwEntry_cooldown (room_id : String) (now : ℤ) (s : RouterState)
    (st : ClientState) :
    (processAwEntry room_id now s st).1.trigger_cooldown = s.trigger_cooldown := by
  unfold processAwEntry
  repeat' (first | rfl | split | dsimp only)

/-- The loop body either fires nothing and leaves `rooms` alone, or fires
exactly one notification for a room whose cooldown had elapsed, stamping
its `last_trigger_time` to `now`. -/
theorem processAwEntry_cases (room_id : String) (now : ℤ) (s : RouterState)
    (st : ClientState) :
    ((processAwEntry room_id now s st).2 = [] ∧
      (processAwEntry room_id now s st).1.rooms = s.rooms) ∨
    (∃ rt, lookupA s.rooms room_id = some rt ∧
      now - rt.last_trigger_time ≥ s.trigger_cooldown ∧
      (processAwEntry room_id now s st).2.length = 1 ∧
      (processAwEntry room_id now s st).1.rooms =
        setA s.rooms room_id { rt with last_trigger_time := now }) := by
  unfold processAwEntry
  repeat' (first | exact Or.inl ⟨rfl, rfl⟩ | split | dsimp only)
  rename_i hA xr room heqr xu user hequ hac hprevt hne hfire
  exact Or.inr ⟨room, heqr, hfire.2, rfl, rfl⟩

/-- The awareness loop never changes the cooldown setting. -/
theorem awLoop_cooldown (room_id : String) (now : ℤ) :
    ∀ (states : List ClientState) (s : RouterState),
    (awLoop room_id now s states).1.trigger_cooldown = s.trigger_cooldown := by
  intro states
  induction states with
  | nil => intro s; rfl
  | cons st rest ih =>
      intro s
      show (awLoop room_id now (processAwEntry room_id now s st).1 rest).1.trigger_cooldown = _
      rw [ih]
      exact processAwEntry_cooldown room_id now s st

/-- With a positive cooldown, one awareness batch fires at most one
notification for its room; when it fires, the room's cooldown had
elapsed and its `last_trigger_time` is stamped to `now`, and no other
room's tracker changes. -/
theorem awLoop_cases (room_id : String) (now : ℤ) :
    ∀ (states : List ClientState) (s : RouterState), 0 < s.trigger_cooldown →
    ((awLoop room_id now s states).2 = [] ∧
      (awLoop room_id now s states).1.rooms = s.rooms) ∨
    ((awLoop room_id now s states).2.length = 1 ∧
      ∃ rt, lookupA s.rooms room_id = some rt ∧
        now - rt.last_trigger_time ≥ s.trigger_cooldown ∧
        lookupA (awLoop room_id now s states).1.rooms room_id =
          some { rt with last_trigger_time := now } ∧
        (∀ r, r ≠ room_id →
          lookupA (awLoop room_id now s states).1.rooms r = lookupA s.rooms r)) := by
  intro states
  induction states with
  | nil =>
      intro s hc
      exact Or.inl ⟨rfl, rfl⟩
  | cons st rest ih =>
      intro s hc
      have hstep := processAwEntry_cases room_id now s st
      have hcd := processAwEntry_cooldown room_id now s st
      have hc1 : 0 < (processAwEntry room_id now s st).1.trigger_cooldown := by
        rw [hcd]; exact hc
      have hrec := ih (processAwEntry room_id now s st).1 hc1
      have e1 : (awLoop room_id now s (st :: rest)).1 =
          (awLoop room_id now (processAwEntry room_id now s st).1 rest).1 := rfl
      have e2 : (awLoop room_id now s (st :: rest)).2 =
          (processAwEntry room_id now s st).2 ++
            (awLoop room_id now (processAwEntry room_id now s st).1 rest).2 := rfl
      rcases hstep with ⟨hn, hrooms⟩ | ⟨rt, hlk, hge, hlen, hrooms⟩
      · rcases hrec with ⟨hn2, hrooms2⟩ | ⟨hlen2, rt, hlk2, hge2, hself2, hframe2⟩
        · exact Or.inl ⟨by rw [e2, hn, hn2]; rfl, by rw [e1, hrooms2, hrooms]⟩
        · refine Or.inr ⟨?_, rt, ?_, ?_, ?_, ?_⟩
          · rw [e2, hn]
            simpa using hlen2
          · rw [← hrooms]
            exact hlk2
          · rw [← hcd]
            exact hge2
          · rw [e1]
            exact hself2
          · intro r hr
            rw [e1, hframe2 r hr, hrooms]
      · rcases hrec with ⟨hn2, hrooms2⟩ | ⟨hlen2, rt2, hlk2, hge2, hself2, hframe2⟩
        · refine Or.inr ⟨?_, rt, hlk, hge, ?_, ?_⟩
          · rw [e2, hn2]
            simpa using hlen
          · rw [e1, hrooms2, hrooms]
            exact lookupA_setA_self _ _ _
          · intro r hr
            rw [e1, hrooms2, hrooms]
            exact lookupA_setA_ne _ _ _ _ hr
        · exfalso
          rw [hrooms, lookupA_setA_self] at hlk2
          injection hlk2 with h
          have hlt : rt2.last_trigger_time = now := by rw [← h]
          rw [hcd] at hge2
          rw [hlt] at hge2
          omega

/-- The awareness handler never changes the cooldown setting. -/
theorem on_awareness_change_cooldown (room_id : String)
    (states : List ClientState) (now : ℤ) (s : RouterState) :
    (on_awareness_change room_id states now s).1.trigger_cooldown =
      s.trigger_cooldown := by
  unfold on_awareness_change
  split
  · rfl
  · exact awLoop_cooldown room_id now states s

/-- `awLoop_cases`, lifted over the room-membership guard of the
handler. -/
theorem on_awareness_change_cases (room_id : String)
    (states : List ClientState) (now : ℤ) (s : RouterState)
    (hc : 0 < s.trigger_cooldown) :
    ((on_awareness_change room_id states now s).2 = [] ∧
      (on_awareness_change room_id states now s).1.rooms = s.rooms) ∨
    ((on_awareness_change room_id states now s).2.length = 1 ∧
      ∃ rt, lookupA s.rooms room_id = some rt ∧
        now - rt.last_trigger_time ≥ s.trigger_cooldown ∧
        lookupA (on_awareness_change room_id states now s).1.rooms room_id =
          some { rt with last_trigger_time := now } ∧
        (∀ r, r ≠ room_id →
          lookupA (on_awareness_change room_id states now s).1.rooms r =
            lookupA s.rooms r)) := by
  unfold on_awareness_change
  split
  · exact Or.inl ⟨rfl, rfl⟩
  · exact awLoop_cases room_id now states s hc

/-- Every notification of a run fires at least one cooldown after the
`last_trigger_time` its room started the run with. -/
theorem runAwareness_mem (events : List AwEvent) :
    ∀ (s : RouterState), 0 < s.trigger_cooldown →
    ∀ tn ∈ runAwareness s events,
    ∃ rt, lookupA s.rooms tn.room_id = some rt ∧
      rt.last_trigger_time + s.trigger_cooldown ≤ tn.time := by
  induction events with
  | nil =>
      intro s hc tn htn
      simp [runAwareness] at htn
  | cons e es ih =>
      intro s hc tn htn
      have e1 : runAwareness s (e :: es) =
          ((on_awareness_change e.room_id e.states e.now s).2.map
            fun n => ⟨e.now, e.room_id, n⟩) ++
          runAwareness (on_awareness_change e.room_id e.states e.now s).1 es := rfl
      rw [e1] at htn
      have hc1 : 0 < (on_awareness_change e.room_id e.states e.now s).1.trigger_cooldown := by
        rw [on_awareness_change_cooldown]; exact hc
      rcases List.mem_append.1 htn with h | h
      · obtain ⟨n, hn, rfl⟩ := List.mem_map.1 h
        rcases on_awareness_change_cases e.room_id e.states e.now s hc with
          ⟨hz, _⟩ | ⟨hlen, rt, hlk, hge, _, _⟩
        · rw [hz] at hn
          simp at hn
        · refine ⟨rt, hlk, ?_⟩
          show rt.last_trigger_time + s.trigger_cooldown ≤ e.now
          omega
      · obtain ⟨rt', hlk', hle'⟩ := ih _ hc1 tn h
        rw [on_awareness_change_cooldown] at hle'
        rcases on_awareness_change_cases e.room_id e.states e.now s hc with
          ⟨_, hrooms⟩ | ⟨_, rt, hlk, hge, hself, hframe⟩
        · rw [hrooms] at hlk'
          exact ⟨rt', hlk', hle'⟩
        · by_cases hr : tn.room_id = e.room_id
          · rw [hr] at hlk'
            have hcomb := hself.symm.trans hlk'
            injection hcomb with h2
            have hlt : rt'.last_trigger_time = e.now := by rw [← h2]
            refine ⟨rt, by rw [hr]; exact hlk, ?_⟩
            rw [hlt] at hle'
            omega
          · rw [hframe tn.room_id hr] at hlk'
            exact ⟨rt', hlk', hle'⟩

/-- A list with at most one element is vacuously pairwise-related. -/
theorem pairwise_of_length_le_one {α : Type} {R : α → α → Prop}
    (l : List α) (h : l.length ≤ 1) : l.Pairwise R := by
  cases l with
  | nil => exact List.Pairwise.nil
  | cons a t =>
      cases t with
      | nil => simp
      | cons b t2 => simp at h

/-- **C4**: the activity gate is a per-room rate limiter: over any run of
presence batches, any two notifications fired from the same room are at
least one cooldown apart in firing time (so a second user changing cells
inside the window is suppressed), and a qualifying change whose room
cooldown has elapsed does fire again. -/
theorem C4_per_room_cooldown :
    (∀ (s : RouterState) (events : List AwEvent), 0 < s.trigger_cooldown →
      (runAwareness s events).Pairwise
        (fun a b => a.room_id = b.room_id →
          a.time + s.trigger_cooldown ≤ b.time)) ∧
    (∀ (room_id : String) (now : ℤ) (s : RouterState) (st : ClientState)
      (u ac : String) (ut : UserTracker) (rt : RoomTracker),
      st.username = some u → strTruthy st.username = true →
      lookupA s.users u = some ut →
      st.activeCellId = some ac → strTruthy st.activeCellId = true →
      lookupA s.rooms room_id = some rt →
      strTruthy ((lookupA ut.room_states room_id).getD defaultRUS).active_cell = true →
      ((lookupA ut.room_states room_id).getD defaultRUS).active_cell ≠ some ac →
      rt.last_edit_time > ((lookupA ut.room_states room_id).getD defaultRUS).last_check →
      now - rt.last_trigger_time ≥ s.trigger_cooldown →
      (processAwEntry room_id now s st).2 ≠ []) := by
  constructor
  · intro s events
    induction events generalizing s with
    | nil =>
        intro hc
        simp [runAwareness]
    | cons e es ih =>
        intro hc
        have e1 : runAwareness s (e :: es) =
            ((on_awareness_change e.room_id e.states e.now s).2.map
              fun n => ⟨e.now, e.room_id, n⟩) ++
            runAwareness (on_awareness_change e.room_id e.states e.now s).1 es := rfl
        rw [e1, List.pairwise_append]
        have hc1 : 0 < (on_awareness_change e.room_id e.states e.now s).1.trigger_cooldown := by
          rw [on_awareness_change_cooldown]; exact hc
        refine ⟨?_, ?_, ?_⟩
        · apply pairwise_of_length_le_one
          rcases on_awareness_change_cases e.room_id e.states e.now s hc with
            ⟨hz, _⟩ | ⟨hlen, _⟩
          · rw [hz]
            simp
          · simp [hlen]
        · have hrec := ih _ hc1
          simpa [on_awareness_change_cooldown] using hrec
        · intro a ha b hb
          obtain ⟨n, hn, rfl⟩ := List.mem_map.1 ha
          intro hroom
          obtain ⟨rt', hlk', hle'⟩ := runAwareness_mem es _ hc1 b hb
          rw [on_awareness_change_cooldown] at hle'
          rcases on_awareness_change_cases e.room_id e.states e.now s hc with
            ⟨hz, _⟩ | ⟨hlen, rt, hlk, hge, hself, hframe⟩
          · rw [hz] at hn
            simp at hn
          · rw [← hroom] at hlk'
            have hcomb := hself.symm.trans hlk'
            injection hcomb with h2
            have hlt : rt'.last_trigger_time = e.now := by rw [← h2]
            show e.now + s.trigger_cooldown ≤ b.time
            rw [hlt] at hle'
            exact hle'
  · intro room_id now s st u ac ut rt huv hu hut hacv hac hrt hA hB hC hD
    rw [(processAwEntry_spec room_id now s st u ac ut rt huv hu hut hacv hac
      hrt).1 hA hB hC hD]
    simp

/-- Witness for C4: the fixture run fires and stays spaced; `u2`'s
qualifying change fires at time 10 from the initial fixture state. -/
theorem C4_per_room_cooldown_witness :
    (runAwareness fxAct fxEvents).Pairwise
      (fun a b => a.room_id = b.room_id →
        a.time + fxAct.trigger_cooldown ≤ b.time) ∧
    (processAwEntry "r1" 10 fxAct fxStU2).2 ≠ [] :=
  ⟨C4_per_room_cooldown.1 fxAct fxEvents (by decide),
   C4_per_room_cooldown.2 "r1" 10 fxAct fxStU2 "u2" "cellY" fxUser2 fxRoom1
     rfl rfl (by decide) rfl rfl (by decide) (by decide) (by decide)
     (by decide) (by decide)⟩

theorem mem_setA {α β : Type} [DecidableEq α]
    (l : List (α × β)) (k : α) (v : β) :
    ∀ p ∈ setA l k v, p ∈ l ∨ p = (k, v) := by
  induction l with
  | nil =>
      intro p hp
      simp only [setA, List.mem_singleton] at hp
      exact Or.inr hp
  | cons q rest ih =>
      intro p hp
      obtain ⟨k0, w⟩ := q
      by_cases h : k = k0
      · simp only [setA, if_pos h, List.mem_cons] at hp
        rcases hp with h1 | h1
        · refine Or.inr ?_
          rw [h1, h]
        · exact Or.inl (List.mem_cons_of_mem _ h1)
      · simp only [setA, if_neg h, List.mem_cons] at hp
        rcases hp with h1 | h1
        · refine Or.inl ?_
          rw [h1]
          exact List.mem_cons_self _ _
        · rcases ih p h1 with h2 | h2
          · exact Or.inl (List.mem_cons_of_mem _ h2)
          · exact Or.inr h2

theorem mem_eraseA {α β : Type} [DecidableEq α]
    (l : List (α × β)) (k : α) :
    ∀ p ∈ eraseA l k, p ∈ l := by
  induction l with
  | nil => intro p hp; simp [eraseA] at hp
  | cons q rest ih =>
      intro p hp
      obtain ⟨k0, w⟩ := q
      by_cases h : k = k0
      · simp only [eraseA, if_pos h] at hp
        exact List.mem_cons_of_mem _ hp
      · simp only [eraseA, if_neg h, List.mem_cons] at hp
        rcases hp with rfl | hp
        · exact List.mem_cons_self _ _
        · exact List.mem_cons_of_mem _ (ih p hp)

theorem lookupA_mem {α β : Type} [DecidableEq α]
    {l : List (α × β)} {k : α} {v : β} :
    lookupA l k = some v → (k, v) ∈ l := by
  induction l with
  | nil => intro h; simp [lookupA] at h
  | cons q rest ih =>
      intro h
      obtain ⟨k0, w⟩ := q
      by_cases hk : k = k0
      · simp only [lookupA, if_pos hk, Option.some_inj] at h
        rw [hk, ← h]
        exact List.mem_cons_self _ _
      · simp only [lookupA, if_neg hk] at h
        exact List.mem_cons_of_mem _ (ih h)

theorem addUser_ne_nil (l : List String) (u : String) : addUser l u ≠ [] := by
  unfold addUser
  split
  · intro h
    subst h
    simp_all
  · simp

/-- `RoomsNonempty` only looks at the `rooms` field. -/
theorem RoomsNonempty_congr {s1 s2 : RouterState} (h : s2.rooms = s1.rooms)
    (h1 : RoomsNonempty s1) : RoomsNonempty s2 := by
  intro p hp
  exact h1 p (h ▸ hp)

theorem RoomsNonempty_start_observing (s : RouterState)
    (room_id username : String) (getDoc : String → Option Nat)
    (h : RoomsNonempty s) :
    RoomsNonempty (start_observing_room s room_id username getDoc) := by
  unfold start_observing_room
  split
  · rename_i room hlk
    intro p hp
    rcases mem_setA _ _ _ p hp with h1 | h1
    · exact h p h1
    · rw [h1]
      exact addUser_ne_nil _ _
  · split
    · exact h
    · intro p hp
      rcases mem_setA _ _ _ p hp with h1 | h1
      · exact h p h1
      · rw [h1]
        simp

theorem RoomsNonempty_stop_observing (s : RouterState) (room_id : String)
    (h : RoomsNonempty s) : RoomsNonempty (stop_observing_room s room_id) := by
  intro p hp
  exact h p (mem_eraseA _ _ p hp)

theorem RoomsNonempty_maybe_stop (s : RouterState) (room_id username : String)
    (h : RoomsNonempty s) :
    RoomsNonempty (maybe_stop_observing_room s room_id username) := by
  unfold maybe_stop_observing_room
  split
  · exact h
  · dsimp only
    split
    · intro p hp
      exact h p (mem_eraseA _ _ p hp)
    · rename_i room hlk hne
      intro p hp
      rcases mem_setA _ _ _ p hp with h1 | h1
      · exact h p h1
      · rw [h1]
        simpa using hne

theorem RoomsNonempty_cleanup_unused (s : RouterState) (h : RoomsNonempty s) :
    RoomsNonempty (cleanup_unused_room_observers s) := by
  intro p hp
  unfold cleanup_unused_room_observers at hp
  simp only [List.mem_filterMap] at hp
  obtain ⟨q, hq, hfq⟩ := hp
  unfold sweepRoom at hfq
  dsimp only at hfq
  split at hfq
  · simp at hfq
  · rename_i hne
    have hfq2 := hfq
    simp only [Option.map] at hfq2
    rw [Option.some_inj] at hfq2
    rw [← hfq2]
    simpa using hne

theorem RoomsNonempty_unobserve (s : RouterState) (observer_id : Nat)
    (h : RoomsNonempty s) :
    RoomsNonempty (unobserve_notebook_activity s observer_id).1 := by
  unfold unobserve_notebook_activity
  split
  · exact h
  · apply RoomsNonempty_cleanup_unused
    refine RoomsNonempty_congr ?_ h
    dsimp only
    split
    · rfl
    · split <;> rfl

theorem RoomsNonempty_observe_active (s : RouterState) (username : String)
    (awStates : List ClientState) (resolve : String → Option String)
    (getDoc : String → Option Nat) (h : RoomsNonempty s) :
    RoomsNonempty (observe_active_notebook s username awStates resolve getDoc) := by
  induction awStates generalizing s with
  | nil => exact h
  | cons st rest ih =>
      unfold observe_active_notebook
      dsimp only
      split
      · exact ih s h
      · split
        · exact ih s h
        · split
          · apply RoomsNonempty_start_observing
            split
            · exact RoomsNonempty_congr rfl h
            · exact h
          · apply ih
            split
            · exact RoomsNonempty_congr rfl h
            · exact h

theorem RoomsNonempty_docSwitchInit (s1 : RouterState)
    (username current_doc room_id : String) (h : RoomsNonempty s1) :
    RoomsNonempty (docSwitchInitState s1 username current_doc room_id) := by
  unfold docSwitchInitState
  split
  · exact h
  · split
    · exact RoomsNonempty_congr rfl h
    · exact h

theorem RoomsNonempty_doc_switch (s : RouterState)
    (username current_doc : String) (prev_doc : Option String)
    (resolve : String → Option String) (getDoc : String → Option Nat)
    (h : RoomsNonempty s) :
    RoomsNonempty (handle_user_document_switch s username current_doc prev_doc
      resolve getDoc) := by
  unfold handle_user_document_switch
  split
  · exact h
  · dsimp only
    split
    · exact h
    · have h2 := RoomsNonempty_docSwitchInit
        (start_observing_room s ((resolve (afterColon current_doc)).getD "")
          username getDoc) username current_doc
        ((resolve (afterColon current_doc)).getD "")
        (RoomsNonempty_start_observing s _ username getDoc h)
      split
      · split
        · exact RoomsNonempty_maybe_stop _ _ _ h2
        · exact h2
      · exact h2

theorem RoomsNonempty_processAwEntry (room_id : String) (now : ℤ)
    (s : RouterState) (st : ClientState) (h : RoomsNonempty s) :
    RoomsNonempty (processAwEntry room_id now s st).1 := by
  rcases processAwEntry_cases room_id now s st with ⟨_, hr⟩ | ⟨rt, hlk, _, _, hr⟩
  · intro p hp
    rw [hr] at hp
    exact h p hp
  · intro p hp
    rw [hr] at hp
    rcases mem_setA _ _ _ p hp with h1 | h1
    · exact h p h1
    · rw [h1]
      exact h (room_id, rt) (lookupA_mem hlk)

theorem RoomsNonempty_awLoop (room_id : String) (now : ℤ)
    (states : List ClientState) :
    ∀ s : RouterState, RoomsNonempty s →
    RoomsNonempty (awLoop room_id now s states).1 := by
  induction states with
  | nil => intro s h; exact h
  | cons st rest ih =>
      intro s h
      exact ih _ (RoomsNonempty_processAwEntry room_id now s st h)

theorem RoomsNonempty_applyOp (s : RouterState) (op : RouterOp)
    (h : RoomsNonempty s) : RoomsNonempty (applyOp s op) := by
  cases op with
  | startObserving room_id username getDoc =>
      exact RoomsNonempty_start_observing s room_id username getDoc h
  | maybeStop room_id username =>
      exact RoomsNonempty_maybe_stop s room_id username h
  | stopObserving room_id => exact RoomsNonempty_stop_observing s room_id h
  | cleanupUnused => exact RoomsNonempty_cleanup_unused s h
  | observeActivity username => exact RoomsNonempty_congr rfl h
  | unobserveActivity observer_id => exact RoomsNonempty_unobserve s observer_id h
  | docSwitch username current_doc prev_doc resolve getDoc =>
      exact RoomsNonempty_doc_switch s username current_doc prev_doc resolve
        getDoc h
  | activeNotebookTask username awStates resolve getDoc =>
      exact RoomsNonempty_observe_active s username awStates resolve getDoc h
  | awarenessChange room_id states now =>
      show RoomsNonempty (on_awareness_change room_id states now s).1
      unfold on_awareness_change
      split
      · exact h
      · exact RoomsNonempty_awLoop room_id now states s h
  | notebookChange room_id now =>
      show RoomsNonempty (on_notebook_change s room_id now)
      unfold on_notebook_change
      split
      · exact h
      · rename_i room hlk
        intro p hp
        rcases mem_setA _ _ _ p hp with h1 | h1
        · exact h p h1
        · rw [h1]
          exact h (room_id, room) (lookupA_mem hlk)

/-- **C6**: after any sequence of attach/detach and observer operations
starting from a fresh router, a RoomTracker exists in `rooms` only with a
non-empty `active_users` set (the other direction of the "iff" is
immediate: a room without a tracker has no user set at all). -/
theorem C6_tracker_iff_nonempty_users (ops : List RouterOp) :
    ∀ (r : String) (rt : RoomTracker),
    lookupA (applyOps initState ops).rooms r = some rt →
    rt.active_users ≠ [] := by
  have hstep : ∀ (l : List RouterOp) (s : RouterState), RoomsNonempty s →
      RoomsNonempty (applyOps s l) := by
    intro l
    induction l with
    | nil => intro s hs; exact hs
    | cons op rest ih =>
        intro s hs
        exact ih _ (RoomsNonempty_applyOp s op hs)
  have h0 : RoomsNonempty initState := by
    intro p hp
    simp [initState] at hp
  intro r rt hlk
  exact hstep ops initState h0 (r, rt) (lookupA_mem hlk)

/-- Witness for C6 after one attach. -/
theorem C6_tracker_iff_nonempty_users_witness :
    (⟨"roomZ", 5, 0, 0, ["zoe"]⟩ : RoomTracker).active_users ≠ [] :=
  C6_tracker_iff_nonempty_users
    [.startObserving "roomZ" "zoe" (fun _ => some 5)] "roomZ"
    ⟨"roomZ", 5, 0, 0, ["zoe"]⟩ (by decide)

theorem keys_filterMap_sublist {α β : Type} [DecidableEq α]
    (l : List (α × β)) (g : β → Option β) :
    (((l.filterMap fun p => (g p.2).map fun v => (p.1, v)).map Prod.fst)).Sublist
      (l.map Prod.fst) := by
  induction l with
  | nil => simp
  | cons p rest ih =>
      cases hg : g p.2 with
      | none =>
          simp only [List.filterMap_cons, hg, Option.map_none', List.map_cons]
          exact ih.cons _
      | some w =>
          simp only [List.filterMap_cons, hg, Option.map_some', List.map_cons]
          exact ih.cons₂ _

/-- Looking up in a key-preserving filterMap of a dict is binding the
per-value function over the plain lookup. -/
theorem lookupA_filterMap {α β : Type} [DecidableEq α]
    (l : List (α × β)) (g : β → Option β) (k : α)
    (hnd : (l.map Prod.fst).Nodup) :
    lookupA (l.filterMap fun p => (g p.2).map fun v => (p.1, v)) k =
      (lookupA l k).bind g := by
  induction l with
  | nil => simp [lookupA]
  | cons p rest ih =>
      obtain ⟨k0, v⟩ := p
      simp only [List.map_cons, List.nodup_cons] at hnd
      by_cases hk : k = k0
      · subst hk
        cases hg : g v with
        | none =>
            have h1 : lookupA
                (rest.filterMap fun p => (g p.2).map fun v => (p.1, v)) k = none := by
              rw [lookupA_none_iff_keys]
              intro hmem
              exact hnd.1 ((keys_filterMap_sublist rest g).subset hmem)
            simp [List.filterMap_cons, hg, lookupA, h1]
        | some w =>
            simp [List.filterMap_cons, hg, lookupA]
      · cases hg : g v with
        | none => simp [List.filterMap_cons, hg, lookupA, hk, ih hnd.2]
        | some w => simp [List.filterMap_cons, hg, lookupA, hk, ih hnd.2]

/-- Lookup characterisation of the room sweep. -/
theorem cleanup_unused_lookup (s : RouterState)
    (hnd : (s.rooms.map Prod.fst).Nodup) (r : String) :
    lookupA (cleanup_unused_room_observers s).rooms r =
      (lookupA s.rooms r).bind (sweepRoom s.users) :=
  lookupA_filterMap s.rooms (sweepRoom s.users) r hnd

/-- **C7**: `unobserve_notebook_activity` returns false on an unknown id
and leaves the state alone; on a known id it removes the registration,
deletes the owning UserTracker exactly when its observer-id list empties,
recomputes every RoomTracker's `active_users` as the users that still
have a live observer, tears down every tracker whose recomputed set is
empty, and returns true. -/
theorem C7_unobserve_sweep (s : RouterState) (observer_id : Nat)
    (hnd : (s.rooms.map Prod.fst).Nodup) :
    (lookupA s.observer_callbacks observer_id = none →
      unobserve_notebook_activity s observer_id = (s, false)) ∧
    (∀ u, lookupA s.observer_callbacks observer_id = some u →
      (unobserve_notebook_activity s observer_id).2 = true ∧
      (unobserve_notebook_activity s observer_id).1.observer_callbacks =
        eraseA s.observer_callbacks observer_id ∧
      (∀ ut, lookupA s.users u = some ut →
        (unobserve_notebook_activity s observer_id).1.users =
          (if (ut.observer_ids.erase observer_id).isEmpty then eraseA s.users u
           else setA s.users u
             { ut with observer_ids := ut.observer_ids.erase observer_id })) ∧
      (lookupA s.users u = none →
        (unobserve_notebook_activity s observer_id).1.users = s.users) ∧
      (∀ r, lookupA (unobserve_notebook_activity s observer_id).1.rooms r =
        (lookupA s.rooms r).bind
          (sweepRoom (unobserve_notebook_activity s observer_id).1.users))) := by
  constructor
  · intro h
    unfold unobserve_notebook_activity
    rw [h]
  · intro u hu
    unfold unobserve_notebook_activity
    rw [hu]
    dsimp only
    cases hus : lookupA s.users u with
    | none =>
        refine ⟨rfl, rfl, ?_, ?_, ?_⟩
        · intro ut hut
          simp at hut
        · intro _
          rfl
        · intro r
          exact cleanup_unused_lookup _ hnd r
    | some ut =>
        split
        · rename_i heq
          simp at heq
        · rename_i user heq
          injection heq with h
          subst h
          refine ⟨rfl, ?_, ?_, ?_, ?_⟩
          · split <;> rfl
          · intro ut2 hut2
            simp only [Option.some_inj] at hut2
            subst hut2
            split <;> rfl
          · intro hnone
            simp at hnone
          · intro r
            split
            · exact cleanup_unused_lookup { s with users := eraseA s.users u, observer_callbacks := eraseA s.observer_callbacks observer_id } hnd r
            · exact cleanup_unused_lookup { s with users := setA s.users u { ut with observer_ids := ut.observer_ids.erase observer_id }, observer_callbacks := eraseA s.observer_callbacks observer_id } hnd r

/-- Witness for C7: removing `bob`'s only observer tears down `roomB`. -/
theorem C7_unobserve_sweep_witness :
    lookupA (unobserve_notebook_activity fxC7 0).1.rooms "roomB" =
      (lookupA fxC7.rooms "roomB").bind
        (sweepRoom (unobserve_notebook_activity fxC7 0).1.users) :=
  ((C7_unobserve_sweep fxC7 0 (by decide)).2 "bob" (by decide)).2.2.2.2 "roomB"

end JupyterAiRouter
